import Mathlib

/-!
Verification of the PDF-to-Markdown core (link overlay, heuristic classifier,
structure analyzer, markdown renderer) against its natural-language
specification.  The Python source (`pdf_to_markdown.py`, `mcp_server.py`) is
shallowly embedded: dictionaries become structures, floats become rationals,
the regular expressions used by the classifier and renderer become explicit
character-list scanners, and the stateful loops become folds.
-/

namespace PdfToMarkdown

/-- Characters matched by Python's `\s` on the ASCII range. -/
def isSpaceChar (c : Char) : Bool :=
  c = ' ' || c = '\t' || c = '\n' || c = '\r' || c = '\x0b' || c = '\x0c'

/-- Python's `str.strip()`: drop leading and trailing whitespace. -/
def pyStrip (s : String) : String :=
  String.mk (((s.data.dropWhile isSpaceChar).reverse.dropWhile isSpaceChar).reverse)

/-- The bullet glyph set of the source regexes:
`[•‣◦⁃∙\*\-\+]`. -/
def isBulletChar (c : Char) : Bool :=
  c = '•' || c = '‣' || c = '◦' || c = '⁃' || c = '∙' || c = '*' || c = '-' || c = '+'

/-- `re.match(r'^\s*[•‣◦⁃∙\*\-\+]\s', text)`:
optional whitespace, one bullet glyph, then one whitespace character. -/
def bulletMatch (s : String) : Bool :=
  match s.data.dropWhile isSpaceChar with
  | c :: d :: _ => isBulletChar c && isSpaceChar d
  | _ => false

/-- `re.match(r'^\s*\d+\.?\s', text)`: optional whitespace, digits, an
optional dot, then one whitespace character (with the regex backtracking on
the optional dot folded in). -/
def numMatch (s : String) : Bool :=
  let t := s.data.dropWhile isSpaceChar
  let ds := t.takeWhile Char.isDigit
  if ds.isEmpty then false
  else
    match t.drop ds.length with
    | '.' :: c :: _ => isSpaceChar c
    | '.' :: [] => false
    | c :: _ => isSpaceChar c
    | [] => false

/-- A link record attached to a span by the link overlay
(`{"url": ..., "type": ..., "overlap_ratio": ...}`). -/
structure AttachedLink where
  url : String
  kind : String
  frac : ℚ
  deriving DecidableEq, Repr

/-- A text span: `{"text", "font", "size", "flags", "link"}` (color and the
span's own bbox are irrelevant to the verified operations). -/
structure Span where
  text : String
  size : ℚ
  flags : ℕ
  link : Option AttachedLink := none
  deriving DecidableEq, Repr

/-- A line: ordered spans. -/
structure Line where
  spans : List Span
  deriving DecidableEq, Repr

/-- A page block: `kind` is `"text"` or `"image"`; `x0` is the bbox left
edge (the only bbox coordinate the classifier reads). -/
structure Block where
  kind : String
  x0 : ℚ := 0
  lines : List Line := []
  deriving DecidableEq, Repr

/-- A page-level link as produced by `extract_links_from_page`:
a source rectangle (`"from"`, possibly absent), a url and a type. -/
structure PageLink where
  fromRect : Option (ℚ × ℚ × ℚ × ℚ)
  url : String
  kind : String
  deriving DecidableEq, Repr

/-- One per-block classification record
(`{"block_id", "type", "confidence"}`; the free-text reasoning is omitted). -/
structure StructRecord where
  block_id : ℤ
  type : String
  confidence : ℚ
  deriving DecidableEq, Repr

/-- The analysis mapping returned by the structure analyzer: an optional
`structure` list plus the document-hierarchy fields and formatting notes. -/
structure AnalysisResult where
  structureField : Option (List StructRecord)
  title : String
  sections : List String
  has_toc : Bool
  document_type : String
  formatting_notes : List String
  deriving DecidableEq, Repr

/-! ## Link Overlay (`check_text_link_overlap`) -/

/-- The overlap fraction the source computes for one link rectangle against a
span bbox: intersection area over span area, 0 when the span area is not
positive or the link has no source rectangle. -/
def overlapFrac (t : ℚ × ℚ × ℚ × ℚ) (l : PageLink) : ℚ :=
  match l.fromRect with
  | none => 0
  | some (lx0, ly0, lx1, ly1) =>
    let (tx0, ty0, tx1, ty1) := t
    let ox := max 0 (min tx1 lx1 - max tx0 lx0)
    let oy := max 0 (min ty1 ly1 - max ty0 ly0)
    let oarea := ox * oy
    let tarea := (tx1 - tx0) * (ty1 - ty0)
    if 0 < tarea then oarea / tarea else 0

/-- `check_text_link_overlap(text_bbox, links)`: walk the links in input
order; skip links without a source rectangle; return the first link whose
intersection area is positive and whose overlap fraction strictly exceeds
one half. -/
def check_text_link_overlap (t : ℚ × ℚ × ℚ × ℚ) : List PageLink → Option AttachedLink
  | [] => none
  | l :: rest =>
    match l.fromRect with
    | none => check_text_link_overlap t rest
    | some (lx0, ly0, lx1, ly1) =>
      let (tx0, ty0, tx1, ty1) := t
      let ox := max 0 (min tx1 lx1 - max tx0 lx0)
      let oy := max 0 (min ty1 ly1 - max ty0 ly0)
      let oarea := ox * oy
      if 0 < oarea then
        let tarea := (tx1 - tx0) * (ty1 - ty0)
        let frac := if 0 < tarea then oarea / tarea else 0
        if 1/2 < frac then some ⟨l.url, l.kind, frac⟩
        else check_text_link_overlap t rest
      else check_text_link_overlap t rest

/-- A link qualifies for attachment to a span when it has a source rectangle
and its overlap fraction strictly exceeds one half. -/
def Qualifies (t : ℚ × ℚ × ℚ × ℚ) (l : PageLink) : Prop :=
  l.fromRect.isSome = true ∧ 1/2 < overlapFrac t l

instance (t : ℚ × ℚ × ℚ × ℚ) (l : PageLink) : Decidable (Qualifies t l) :=
  inferInstanceAs (Decidable (_ ∧ _))

/-- A qualifying link is returned immediately, carrying its overlap fraction. -/
lemma check_cons_hit (t : ℚ × ℚ × ℚ × ℚ) (l : PageLink) (rest : List PageLink)
    (h : Qualifies t l) :
    check_text_link_overlap t (l :: rest) = some ⟨l.url, l.kind, overlapFrac t l⟩ := by
  obtain ⟨tx0, ty0, tx1, ty1⟩ := t
  obtain ⟨hsome, hfrac⟩ := h
  match hrect : l.fromRect with
  | none => rw [hrect] at hsome; simp at hsome
  | some (lx0, ly0, lx1, ly1) =>
    rw [overlapFrac, hrect] at hfrac ⊢
    simp only at hfrac
    rw [check_text_link_overlap, hrect]
    simp only
    by_cases ht : 0 < (tx1 - tx0) * (ty1 - ty0)
    · rw [if_pos ht] at hfrac ⊢
      have hpos : 0 < max 0 (min tx1 lx1 - max tx0 lx0) * max 0 (min ty1 ly1 - max ty0 ly0) := by
        by_contra hneg
        push_neg at hneg
        have : max 0 (min tx1 lx1 - max tx0 lx0) * max 0 (min ty1 ly1 - max ty0 ly0) / ((tx1 - tx0) * (ty1 - ty0)) ≤ 0 :=
          div_nonpos_of_nonpos_of_nonneg hneg ht.le
        linarith
      rw [if_pos hpos, if_pos hfrac]
    · rw [if_neg ht] at hfrac
      norm_num at hfrac

/-- A non-qualifying link is skipped and the scan continues. -/
lemma check_cons_skip (t : ℚ × ℚ × ℚ × ℚ) (l : PageLink) (rest : List PageLink)
    (h : ¬ Qualifies t l) :
    check_text_link_overlap t (l :: rest) = check_text_link_overlap t rest := by
  obtain ⟨tx0, ty0, tx1, ty1⟩ := t
  match hrect : l.fromRect with
  | none => rw [check_text_link_overlap, hrect]
  | some (lx0, ly0, lx1, ly1) =>
    rw [Qualifies, overlapFrac, hrect] at h
    simp only [Option.isSome_some, true_and] at h
    rw [check_text_link_overlap, hrect]
    simp only
    by_cases ho : 0 < max 0 (min tx1 lx1 - max tx0 lx0) * max 0 (min ty1 ly1 - max ty0 ly0)
    · rw [if_pos ho]
      by_cases ht : 0 < (tx1 - tx0) * (ty1 - ty0)
      · rw [if_pos ht] at h ⊢
        rw [if_neg h]
      · rw [if_neg ht] at h ⊢
        rw [if_neg h]
    · rw [if_neg ho]

/-- The scan attaches some link iff some link in the list qualifies. -/
lemma check_isSome_iff (t : ℚ × ℚ × ℚ × ℚ) (links : List PageLink) :
    (check_text_link_overlap t links).isSome = true ↔ ∃ l ∈ links, Qualifies t l := by
  induction links with
  | nil => simp [check_text_link_overlap]
  | cons l rest ih =>
    by_cases h : Qualifies t l
    · rw [check_cons_hit t l rest h]
      simp only [Option.isSome_some, true_iff]
      exact ⟨l, List.mem_cons_self l rest, h⟩
    · rw [check_cons_skip t l rest h, ih]
      constructor
      · rintro ⟨x, hx, hq⟩
        exact ⟨x, List.mem_cons_of_mem l hx, hq⟩
      · rintro ⟨x, hx, hq⟩
        rcases List.mem_cons.mp hx with rfl | hx'
        · exact absurd hq h
        · exact ⟨x, hx', hq⟩

/-- The first qualifying link in input order is the one attached. -/
lemma check_first_match (t : ℚ × ℚ × ℚ × ℚ) (pre : List PageLink) (l : PageLink)
    (rest : List PageLink) (hpre : ∀ l' ∈ pre, ¬ Qualifies t l') (hl : Qualifies t l) :
    check_text_link_overlap t (pre ++ l :: rest) = some ⟨l.url, l.kind, overlapFrac t l⟩ := by
  induction pre with
  | nil => exact check_cons_hit t l rest hl
  | cons p pre' ih =>
    rw [List.cons_append,
      check_cons_skip t p (pre' ++ l :: rest) (hpre p (List.mem_cons_self p pre'))]
    exact ih fun l' hl' => hpre l' (List.mem_cons_of_mem p hl')

/-- C3: `check_text_link_overlap` attaches a link iff some link's overlap
fraction (intersection area over span area, zero for a degenerate span)
strictly exceeds one half; the first qualifying link in input order wins;
and a zero-area span never gets a link attached. -/
theorem c3_link_attachment (t : ℚ × ℚ × ℚ × ℚ) (links : List PageLink) :
    ((check_text_link_overlap t links).isSome = true ↔ ∃ l ∈ links, Qualifies t l)
    ∧ (∀ pre l rest, links = pre ++ l :: rest → (∀ l' ∈ pre, ¬ Qualifies t l') →
        Qualifies t l →
        check_text_link_overlap t links = some ⟨l.url, l.kind, overlapFrac t l⟩)
    ∧ ((t.2.2.1 - t.1) * (t.2.2.2 - t.2.1) = 0 → check_text_link_overlap t links = none) := by
  refine ⟨check_isSome_iff t links, ?_, ?_⟩
  · rintro pre l rest rfl hpre hl
    exact check_first_match t pre l rest hpre hl
  · intro harea
    obtain ⟨tx0, ty0, tx1, ty1⟩ := t
    simp only at harea
    rw [← Option.not_isSome_iff_eq_none]
    intro hs
    obtain ⟨l, _, hsome, hfrac⟩ := (check_isSome_iff _ links).mp hs
    match hrect : l.fromRect with
    | none => rw [hrect] at hsome; simp at hsome
    | some (lx0, ly0, lx1, ly1) =>
      rw [overlapFrac, hrect] at hfrac
      simp only [harea, lt_irrefl, if_false] at hfrac
      norm_num at hfrac

/-- Witness for C3: a link overlapping the span by exactly one half is not
attached; a full-overlap link after it is attached with fraction 1. -/
theorem c3_link_attachment_witness :
    check_text_link_overlap (0, 0, 2, 2)
        [⟨some (0, 0, 2, 1), "u1", "external"⟩, ⟨some (0, 0, 2, 2), "u2", "external"⟩]
      = some ⟨"u2", "external", 1⟩
    ∧ check_text_link_overlap (0, 0, 2, 2) [⟨some (0, 0, 2, 1), "u1", "external"⟩] = none := by
  have hpre : ∀ l' ∈ [(⟨some (0, 0, 2, 1), "u1", "external"⟩ : PageLink)],
      ¬ Qualifies (0, 0, 2, 2) l' := by
    intro l' hl'
    rw [List.mem_singleton] at hl'
    subst hl'
    norm_num [Qualifies, overlapFrac, min_def, max_def]
  have hq : Qualifies (0, 0, 2, 2) ⟨some (0, 0, 2, 2), "u2", "external"⟩ := by
    norm_num [Qualifies, overlapFrac, min_def, max_def]
  refine ⟨?_, ?_⟩
  · have h := (c3_link_attachment (0, 0, 2, 2)
        [⟨some (0, 0, 2, 1), "u1", "external"⟩, ⟨some (0, 0, 2, 2), "u2", "external"⟩]).2.1
      [⟨some (0, 0, 2, 1), "u1", "external"⟩] ⟨some (0, 0, 2, 2), "u2", "external"⟩ []
      (by simp) hpre hq
    rw [h]
    norm_num [overlapFrac, min_def, max_def]
  · rw [← Option.not_isSome_iff_eq_none]
    intro hs
    obtain ⟨l, hl, hql⟩ := ((c3_link_attachment (0, 0, 2, 2) _).1).mp hs
    rw [List.mem_singleton] at hl
    subst hl
    exact hpre _ (List.mem_singleton_self _) hql

/-! ## Heuristic Classifier (`_fallback_structure_analysis` and helpers) -/

/-- All spans of a block, in reading order. -/
def blockSpans (b : Block) : List Span :=
  (b.lines.map Line.spans).flatten

/-- `_get_average_font_size`: mean of span sizes, 12 when there are no
spans. -/
def get_average_font_size (b : Block) : ℚ :=
  if 0 < (blockSpans b).length then
    ((blockSpans b).map Span.size).sum / ((blockSpans b).length : ℚ)
  else 12

/-- `_is_block_bold`: bold-character count over total character count
strictly exceeds one half (false when there are no characters); a span is
bold when bit 4 of its flags is set. -/
def is_block_bold (b : Block) : Bool :=
  decide (0 < ((blockSpans b).map (fun s => s.text.length)).sum)
    && decide ((1 : ℚ)/2 <
      (((((blockSpans b).filter (fun s => s.flags &&& 2^4 ≠ 0)).map
          (fun s => s.text.length)).sum : ℚ)
        / (((blockSpans b).map (fun s => s.text.length)).sum : ℚ)))

/-- `_extract_block_text`: concatenation of all span texts. -/
def extract_block_text (b : Block) : String :=
  String.join ((blockSpans b).map Span.text)

/-- The classification decision logic of `_fallback_structure_analysis` for
one text block: `i` is the block's position in the page's block sequence,
`prevIsList` whether the classifier's previous record is a `list_item`,
`thr` the page's mean left margin. -/
def classifyType (i : ℕ) (prevIsList : Bool) (thr : ℚ) (b : Block) : String :=
  if 20 ≤ get_average_font_size b
      ∨ (16 ≤ get_average_font_size b ∧ is_block_bold b = true) then
    if i = 0 then "title" else "heading1"
  else if 16 ≤ get_average_font_size b
      ∨ (14 ≤ get_average_font_size b ∧ is_block_bold b = true) then "heading2"
  else if 14 ≤ get_average_font_size b
      ∨ (12 ≤ get_average_font_size b ∧ is_block_bold b = true) then "heading3"
  else if thr < b.x0 ∨ bulletMatch (extract_block_text b) = true
      ∨ numMatch (extract_block_text b) = true then
    if 0 < i ∧ prevIsList = true then "list_item"
    else if thr < b.x0 ∧ (pyStrip (extract_block_text b)).length < 100 then "list_item"
    else if bulletMatch (extract_block_text b) = true
        ∨ numMatch (extract_block_text b) = true then "list_item"
    else "paragraph"
  else if (pyStrip (extract_block_text b)).length < 50
      ∧ (extract_block_text b).data.contains ':' = true then "metadata"
  else "paragraph"

/-- The classifier's second pass: walk the enumerated blocks, skip non-text
blocks, classify each text block (the list-continuation check reads the last
record emitted so far), record it with confidence 0.7, and append the
trimmed text of every `heading1` block to `sections`. -/
def classifyFold : List (ℕ × Block) → ℚ → List StructRecord → List String →
    List StructRecord × List String
  | [], _, recs, secs => (recs, secs)
  | (i, b) :: rest, thr, recs, secs =>
    if b.kind = "text" then
      let prevIsList : Bool := decide (0 < i) && (match recs.getLast? with
        | some r => r.type == "list_item"
        | none => false)
      let t := classifyType i prevIsList thr b
      classifyFold rest thr (recs ++ [⟨(i : ℤ), t, 7/10⟩])
        (if t = "heading1" then secs ++ [pyStrip (extract_block_text b)] else secs)
    else classifyFold rest thr recs secs

/-- `_fallback_structure_analysis`: first pass computes the mean left margin
over text blocks (0 when there are none), second pass classifies. -/
def fallback_structure_analysis (text_blocks : List Block) : AnalysisResult :=
  let left_margins := (text_blocks.filter (fun b => b.kind == "text")).map Block.x0
  let avg_left_margin : ℚ :=
    if left_margins.isEmpty then 0 else left_margins.sum / (left_margins.length : ℚ)
  { structureField := some (classifyFold text_blocks.enum avg_left_margin [] []).1
    title := "Unknown Document"
    sections := (classifyFold text_blocks.enum avg_left_margin [] []).2
    has_toc := false
    document_type := "unknown"
    formatting_notes := ["Analysis performed without MCP client assistance"] }

/-- C7: the font-size rows are inclusive and ordered: a non-bold block with
average size exactly 20 is `title` when first on the page and `heading1`
otherwise, while a non-bold block with average size 19.9 misses the first
row and falls through to the later rows (landing on `heading2`). -/
theorem c7_font_thresholds (b b' : Block) (i i' : ℕ) (p p' : Bool) (thr thr' : ℚ)
    (h20 : get_average_font_size b = 20) (hb : is_block_bold b = false)
    (h19 : get_average_font_size b' = 199/10) (hb' : is_block_bold b' = false) :
    classifyType i p thr b = (if i = 0 then "title" else "heading1")
    ∧ classifyType i' p' thr' b' = "heading2" := by
  constructor
  · simp only [classifyType, h20, hb]
    norm_num
  · simp only [classifyType, h19, hb']
    norm_num

/-- Witness for C7 on concrete one-span blocks of sizes 20 and 19.9. -/
theorem c7_font_thresholds_witness :
    classifyType 1 false 0 ⟨"text", 0, [⟨[⟨"A", 20, 0, none⟩]⟩]⟩ = "heading1"
    ∧ classifyType 0 false 0 ⟨"text", 0, [⟨[⟨"A", 199/10, 0, none⟩]⟩]⟩ = "heading2" := by
  have h := c7_font_thresholds ⟨"text", 0, [⟨[⟨"A", 20, 0, none⟩]⟩]⟩
    ⟨"text", 0, [⟨[⟨"A", 199/10, 0, none⟩]⟩]⟩ 1 0 false false 0 0
    (by norm_num [get_average_font_size, blockSpans])
    (by norm_num [is_block_bold, blockSpans])
    (by norm_num [get_average_font_size, blockSpans])
    (by norm_num [is_block_bold, blockSpans])
  exact ⟨by simpa using h.1, h.2⟩

/-- The text blocks of a page, paired with their positions in the full
block sequence. -/
def textItems (blocks : List Block) : List (ℕ × Block) :=
  blocks.enum.filter (fun p => p.2.kind == "text")

/-- The section titles induced by a record list zipped against the text
blocks it classified: the trimmed text of every block recorded `heading1`,
in order. -/
def sectionsOf (recs : List StructRecord) (items : List (ℕ × Block)) : List String :=
  (recs.zip items).filterMap (fun q =>
    if q.1.type = "heading1" then some (pyStrip (extract_block_text q.2.2)) else none)

/-- The classifier fold appends exactly one record per text block, with the
block's position as its id, and extends `sections` by exactly the trimmed
texts of the blocks those records classify `heading1`. -/
lemma classifyFold_spec (l : List (ℕ × Block)) (thr : ℚ) :
    ∀ (recs : List StructRecord) (secs : List String),
    ∃ Δ, classifyFold l thr recs secs
        = (recs ++ Δ, secs ++ sectionsOf Δ (l.filter (fun p => p.2.kind == "text")))
      ∧ Δ.map StructRecord.block_id
          = (l.filter (fun p => p.2.kind == "text")).map (fun p => (p.1 : ℤ)) := by
  induction l with
  | nil =>
    intro recs secs
    exact ⟨[], by simp [classifyFold, sectionsOf], by simp⟩
  | cons hd rest ih =>
    obtain ⟨i, b⟩ := hd
    intro recs secs
    by_cases hk : b.kind = "text"
    · have hfilter : List.filter (fun p : ℕ × Block => p.2.kind == "text") ((i, b) :: rest)
          = (i, b) :: List.filter (fun p : ℕ × Block => p.2.kind == "text") rest := by
        simp [List.filter_cons, hk]
      have hstep : classifyFold ((i, b) :: rest) thr recs secs
          = classifyFold rest thr
              (recs ++ [⟨(i : ℤ),
                classifyType i (decide (0 < i) && (match recs.getLast? with
                  | some r => r.type == "list_item"
                  | none => false)) thr b, 7/10⟩])
              (if classifyType i (decide (0 < i) && (match recs.getLast? with
                  | some r => r.type == "list_item"
                  | none => false)) thr b = "heading1"
                then secs ++ [pyStrip (extract_block_text b)] else secs) := by
        simp only [classifyFold]
        rw [if_pos hk]
      obtain ⟨Δ, hfold, hids⟩ := ih
        (recs ++ [⟨(i : ℤ),
          classifyType i (decide (0 < i) && (match recs.getLast? with
            | some r => r.type == "list_item"
            | none => false)) thr b, 7/10⟩])
        (if classifyType i (decide (0 < i) && (match recs.getLast? with
            | some r => r.type == "list_item"
            | none => false)) thr b = "heading1"
          then secs ++ [pyStrip (extract_block_text b)] else secs)
      refine ⟨⟨(i : ℤ),
        classifyType i (decide (0 < i) && (match recs.getLast? with
          | some r => r.type == "list_item"
          | none => false)) thr b, 7/10⟩ :: Δ, ?_, ?_⟩
      · rw [hstep, hfold, hfilter]
        refine Prod.ext ?_ ?_
        · simp
        · simp only [sectionsOf, List.zip_cons_cons, List.filterMap_cons]
          by_cases hh : classifyType i (decide (0 < i) && (match recs.getLast? with
              | some r => r.type == "list_item"
              | none => false)) thr b = "heading1"
          · rw [if_pos hh]
            simp only [hh, if_pos rfl]
            simp [sectionsOf]
          · rw [if_neg hh]
            simp only [if_neg hh]
      · rw [hfilter]
        simp [hids]
    · have hfilter : List.filter (fun p : ℕ × Block => p.2.kind == "text") ((i, b) :: rest)
          = List.filter (fun p : ℕ × Block => p.2.kind == "text") rest := by
        simp [List.filter_cons, hk]
      have hstep : classifyFold ((i, b) :: rest) thr recs secs
          = classifyFold rest thr recs secs := by
        simp only [classifyFold]
        rw [if_neg hk]
      obtain ⟨Δ, hfold, hids⟩ := ih recs secs
      refine ⟨Δ, ?_, ?_⟩
      · rw [hstep, hfold, hfilter]
      · rw [hfilter]
        exact hids

/-- C5: the heuristic classifier emits exactly one record per text block
(ids are the text blocks' positions, in order), and the returned `sections`
list is exactly the trimmed text of every block it recorded `heading1`, in
block order. -/
theorem c5_records_and_sections (blocks : List Block) :
    ∃ recs, (fallback_structure_analysis blocks).structureField = some recs
      ∧ recs.map StructRecord.block_id = (textItems blocks).map (fun p => (p.1 : ℤ))
      ∧ (fallback_structure_analysis blocks).sections = sectionsOf recs (textItems blocks) := by
  obtain ⟨Δ, hfold, hids⟩ := classifyFold_spec blocks.enum
    (if ((blocks.filter (fun b => b.kind == "text")).map Block.x0).isEmpty then 0
     else ((blocks.filter (fun b => b.kind == "text")).map Block.x0).sum
       / (((blocks.filter (fun b => b.kind == "text")).map Block.x0).length : ℚ)) [] []
  refine ⟨Δ, ?_, hids, ?_⟩
  · simp only [fallback_structure_analysis]
    rw [hfold]
    simp
  · simp only [fallback_structure_analysis]
    rw [hfold]
    simp [textItems]

/-- Witness for C5 at a concrete one-block page. -/
theorem c5_records_and_sections_witness :
    ∃ recs, (fallback_structure_analysis [⟨"text", 0, [⟨[⟨"Intro block", 10, 0, none⟩]⟩]⟩]).structureField
        = some recs
      ∧ recs.map StructRecord.block_id
        = (textItems [⟨"text", 0, [⟨[⟨"Intro block", 10, 0, none⟩]⟩]⟩]).map (fun p => (p.1 : ℤ))
      ∧ (fallback_structure_analysis [⟨"text", 0, [⟨[⟨"Intro block", 10, 0, none⟩]⟩]⟩]).sections
        = sectionsOf recs (textItems [⟨"text", 0, [⟨[⟨"Intro block", 10, 0, none⟩]⟩]⟩]) :=
  c5_records_and_sections [⟨"text", 0, [⟨[⟨"Intro block", 10, 0, none⟩]⟩]⟩]

/-- A short unindented paragraph block (left edge 0, 10pt, plain). -/
def exPara : Block := ⟨"text", 0, [⟨[⟨"Intro block", 10, 0, none⟩]⟩]⟩

/-- An indented block (left edge 10, 10pt, plain) whose text is 100
characters long with no list marker. -/
def exLongIndented : Block :=
  ⟨"text", 10, [⟨[⟨String.mk (List.replicate 100 'a'), 10, 0, none⟩]⟩]⟩

/-- C6 (amended): when no font-size row matches and the block's left edge
strictly exceeds the page's mean left margin, the classifier emits
`list_item` whenever the trimmed text is shorter than 100 characters —
regardless of the previous block; indentation alone is not sufficient when
the text is 100 characters or longer (see the counterexample). -/
theorem c6_indented_short_is_list_item (i : ℕ) (p : Bool) (thr : ℚ) (b : Block)
    (h1 : ¬ (20 ≤ get_average_font_size b
        ∨ (16 ≤ get_average_font_size b ∧ is_block_bold b = true)))
    (h2 : ¬ (16 ≤ get_average_font_size b
        ∨ (14 ≤ get_average_font_size b ∧ is_block_bold b = true)))
    (h3 : ¬ (14 ≤ get_average_font_size b
        ∨ (12 ≤ get_average_font_size b ∧ is_block_bold b = true)))
    (hx : thr < b.x0)
    (hlen : (pyStrip (extract_block_text b)).length < 100) :
    classifyType i p thr b = "list_item" := by
  simp only [classifyType]
  rw [if_neg h1, if_neg h2, if_neg h3, if_pos (Or.inl hx)]
  by_cases hp : 0 < i ∧ p = true
  · rw [if_pos hp]
  · rw [if_neg hp, if_pos ⟨hx, hlen⟩]

/-- Witness for C6 (amended): an indented two-character block below all font
rows is a `list_item` even though the previous block is not one. -/
theorem c6_indented_short_is_list_item_witness :
    classifyType 3 false 0 ⟨"text", 1, [⟨[⟨"xy", 10, 0, none⟩]⟩]⟩ = "list_item" := by
  have havg : get_average_font_size ⟨"text", 1, [⟨[⟨"xy", 10, 0, none⟩]⟩]⟩ = 10 := by
    norm_num [get_average_font_size, blockSpans]
  have hbold : is_block_bold ⟨"text", 1, [⟨[⟨"xy", 10, 0, none⟩]⟩]⟩ = false := by
    simp [is_block_bold, blockSpans]
  have hstrip : pyStrip (extract_block_text ⟨"text", 1, [⟨[⟨"xy", 10, 0, none⟩]⟩]⟩) = "xy" := by
    decide
  refine c6_indented_short_is_list_item 3 false 0 _ ?_ ?_ ?_ (by norm_num)
    (by rw [hstrip]; decide)
  · rw [havg, hbold]; norm_num
  · rw [havg, hbold]; norm_num
  · rw [havg, hbold]; norm_num

/-- The short unindented plain block classifies `paragraph`. -/
lemma classify_exPara : classifyType 0 false 5 exPara = "paragraph" := by
  have havg : get_average_font_size exPara = 10 := by
    norm_num [get_average_font_size, blockSpans, exPara]
  have hbold : is_block_bold exPara = false := by
    norm_num [is_block_bold, blockSpans, exPara]
  have hx : exPara.x0 = 0 := rfl
  have hbm : bulletMatch (extract_block_text exPara) = false := by decide
  have hnm : numMatch (extract_block_text exPara) = false := by decide
  have hco : (extract_block_text exPara).data.contains ':' = false := by decide
  simp only [classifyType]
  rw [havg, hbold, hx, hbm, hnm, hco]
  norm_num

/-- The indented 100-character plain block with no marker classifies
`paragraph`, not `list_item`. -/
lemma classify_exLongIndented : classifyType 1 false 5 exLongIndented = "paragraph" := by
  have havg : get_average_font_size exLongIndented = 10 := by
    norm_num [get_average_font_size, blockSpans, exLongIndented]
  have h100 : (String.mk (List.replicate 100 'a')).length = 100 := by decide
  have hbold : is_block_bold exLongIndented = false := by
    norm_num [is_block_bold, blockSpans, exLongIndented, h100]
  have hx : exLongIndented.x0 = 10 := rfl
  have hbm : bulletMatch (extract_block_text exLongIndented) = false := by decide
  have hnm : numMatch (extract_block_text exLongIndented) = false := by decide
  have hlen : (pyStrip (extract_block_text exLongIndented)).length = 100 := by decide
  simp only [classifyType]
  rw [havg, hbold, hx, hbm, hnm, hlen]
  norm_num

/-- C6 fails on the code: `exLongIndented` sits past the page's mean left
margin (10 > 5) with average font size 10 below every heading threshold, yet
the classifier records it as `paragraph`, not `list_item` — its trimmed text
is 100 characters long, it has no marker, and the previous block is not a
list item. -/
theorem c6_counterexample :
    (fallback_structure_analysis [exPara, exLongIndented]).structureField
      = some [⟨0, "paragraph", 7/10⟩, ⟨1, "paragraph", 7/10⟩]
    ∧ ((([exPara, exLongIndented].filter (fun b => b.kind == "text")).map Block.x0).sum
        / ((([exPara, exLongIndented].filter (fun b => b.kind == "text")).map Block.x0).length : ℚ))
      = 5
    ∧ (5 : ℚ) < exLongIndented.x0
    ∧ get_average_font_size exLongIndented = 10
    ∧ is_block_bold exLongIndented = false := by
  have havg : get_average_font_size exLongIndented = 10 := by
    norm_num [get_average_font_size, blockSpans, exLongIndented]
  have h100 : (String.mk (List.replicate 100 'a')).length = 100 := by decide
  have hbold : is_block_bold exLongIndented = false := by
    norm_num [is_block_bold, blockSpans, exLongIndented, h100]
  have hmean : ((([exPara, exLongIndented].filter (fun b => b.kind == "text")).map Block.x0).sum
      / ((([exPara, exLongIndented].filter (fun b => b.kind == "text")).map Block.x0).length : ℚ))
      = 5 := by
    norm_num [exPara, exLongIndented, List.filter_cons]
  refine ⟨?_, hmean, by norm_num [exLongIndented], havg, hbold⟩
  have hthr : (if ((([exPara, exLongIndented].filter (fun b => b.kind == "text")).map
        Block.x0)).isEmpty then (0 : ℚ)
      else ((([exPara, exLongIndented].filter (fun b => b.kind == "text")).map Block.x0)).sum
        / (((([exPara, exLongIndented].filter (fun b => b.kind == "text")).map
          Block.x0)).length : ℚ)) = 5 := by
    rw [if_neg (by norm_num [exPara, exLongIndented, List.filter_cons])]
    exact hmean
  have henum : [exPara, exLongIndented].enum = [(0, exPara), (1, exLongIndented)] := rfl
  have hne1 : ¬ (("paragraph" : String) = "heading1") := by decide
  have hbeq : (("paragraph" : String) == "list_item") = false := by decide
  simp only [fallback_structure_analysis]
  rw [hthr, henum]
  simp only [classifyFold, if_pos (show exPara.kind = "text" from rfl),
    if_pos (show exLongIndented.kind = "text" from rfl)]
  norm_num [classify_exPara, classify_exLongIndented, hne1, hbeq]

/-- C10 (amended): a text block with no spans never fails the classifier:
the guarded division defaults the average font size to 12, the bold test is
false, and the block lands in `list_item` or `paragraph` — never `title` or
a heading.  (A block whose spans exist but carry no characters keeps the
true mean span size and CAN reach `title`/heading rows; see the
counterexample.) -/
theorem c10_no_spans_defaults (b : Block) (i : ℕ) (p : Bool) (thr : ℚ)
    (h : blockSpans b = []) :
    get_average_font_size b = 12 ∧ is_block_bold b = false
    ∧ (classifyType i p thr b = "list_item" ∨ classifyType i p thr b = "paragraph") := by
  have havg : get_average_font_size b = 12 := by simp [get_average_font_size, h]
  have hbold : is_block_bold b = false := by simp [is_block_bold, h]
  have htext : extract_block_text b = "" := by rw [extract_block_text, h]; rfl
  refine ⟨havg, hbold, ?_⟩
  simp only [classifyType]
  rw [havg, hbold, htext]
  have h1 : ¬((20 : ℚ) ≤ 12 ∨ ((16 : ℚ) ≤ 12 ∧ false = true)) := by norm_num
  have h2 : ¬((16 : ℚ) ≤ 12 ∨ ((14 : ℚ) ≤ 12 ∧ false = true)) := by norm_num
  have h3 : ¬((14 : ℚ) ≤ 12 ∨ ((12 : ℚ) ≤ 12 ∧ false = true)) := by norm_num
  have hbm : bulletMatch "" = false := by decide
  have hnm : numMatch "" = false := by decide
  rw [if_neg h1, if_neg h2, if_neg h3, hbm, hnm]
  by_cases hx : thr < b.x0
  · rw [if_pos (Or.inl hx)]
    by_cases hp : 0 < i ∧ p = true
    · rw [if_pos hp]
      left; rfl
    · rw [if_neg hp, if_pos ⟨hx, by decide⟩]
      left; rfl
  · have h4 : ¬(thr < b.x0 ∨ false = true ∨ false = true) := by simp [hx]
    rw [if_neg h4]
    have h5 : ¬((pyStrip "").length < 50 ∧ ("" : String).data.contains ':' = true) := by decide
    rw [if_neg h5]
    right; rfl

/-- Witness for C10 (amended) on a block with one empty line. -/
theorem c10_no_spans_defaults_witness :
    get_average_font_size ⟨"text", 3, [⟨[]⟩]⟩ = 12
    ∧ is_block_bold ⟨"text", 3, [⟨[]⟩]⟩ = false
    ∧ (classifyType 2 true 0 ⟨"text", 3, [⟨[]⟩]⟩ = "list_item"
      ∨ classifyType 2 true 0 ⟨"text", 3, [⟨[]⟩]⟩ = "paragraph") :=
  c10_no_spans_defaults ⟨"text", 3, [⟨[]⟩]⟩ 2 true 0 rfl

/-- C10's parenthetical fails on the code: a block with one span of size 30
whose text is empty has no characters at all, yet its average font size is
30 (not the 12 default) and the classifier sends it to `title` via the
first font row. -/
theorem c10_counterexample :
    (∀ s ∈ blockSpans ⟨"text", 0, [⟨[⟨"", 30, 0, none⟩]⟩]⟩, s.text = "")
    ∧ get_average_font_size ⟨"text", 0, [⟨[⟨"", 30, 0, none⟩]⟩]⟩ = 30
    ∧ classifyType 0 false 0 ⟨"text", 0, [⟨[⟨"", 30, 0, none⟩]⟩]⟩ = "title" := by
  have havg : get_average_font_size ⟨"text", 0, [⟨[⟨"", 30, 0, none⟩]⟩]⟩ = 30 := by
    norm_num [get_average_font_size, blockSpans]
  refine ⟨?_, havg, ?_⟩
  · intro s hs
    simp [blockSpans] at hs
    rw [hs]
  · simp only [classifyType]
    rw [havg]
    have h1 : (20 : ℚ) ≤ 30
        ∨ ((16 : ℚ) ≤ 30 ∧ is_block_bold ⟨"text", 0, [⟨[⟨"", 30, 0, none⟩]⟩]⟩ = true) :=
      Or.inl (by norm_num)
    rw [if_pos h1]
    simp

/-! ## MCP server (`CopilotMCPAnalyzer._generate_heuristic_analysis`) -/

/-- The classification logic of the MCP server's duplicated heuristic: same
font rows, but no positional signals and no list-continuation check. -/
def mcpClassifyType (i : ℕ) (b : Block) : String :=
  if 20 ≤ get_average_font_size b
      ∨ (16 ≤ get_average_font_size b ∧ is_block_bold b = true) then
    if i = 0 then "title" else "heading1"
  else if 16 ≤ get_average_font_size b
      ∨ (14 ≤ get_average_font_size b ∧ is_block_bold b = true) then "heading2"
  else if 14 ≤ get_average_font_size b
      ∨ (12 ≤ get_average_font_size b ∧ is_block_bold b = true) then "heading3"
  else if bulletMatch (extract_block_text b) = true
      ∨ numMatch (extract_block_text b) = true then "list_item"
  else if (pyStrip (extract_block_text b)).length < 50
      ∧ (extract_block_text b).data.contains ':' = true then "metadata"
  else "paragraph"

/-- `_generate_heuristic_analysis`: one record per text block with
confidence 0.8 ("higher confidence for MCP mode"), `heading1` texts as
sections, `has_toc` when more than three sections (the `text_preview` and
Copilot-flag fields are omitted). -/
def generate_heuristic_analysis (text_blocks : List Block) : AnalysisResult :=
  { structureField := some ((text_blocks.enum.filter (fun p => p.2.kind == "text")).map
      (fun p => ⟨(p.1 : ℤ), mcpClassifyType p.1 p.2, 4/5⟩))
    title := "Document Analysis"
    sections := (text_blocks.enum.filter (fun p => p.2.kind == "text")).filterMap
      (fun p => if mcpClassifyType p.1 p.2 = "heading1"
        then some (pyStrip (extract_block_text p.2)) else none)
    has_toc := decide (3 < ((text_blocks.enum.filter (fun p => p.2.kind == "text")).filterMap
      (fun p => if mcpClassifyType p.1 p.2 = "heading1"
        then some (pyStrip (extract_block_text p.2)) else none)).length)
    document_type := "document"
    formatting_notes := ["Analysis performed via MCP server",
      "Enhanced heuristic analysis available", "Compatible with GitHub Copilot Chat"] }

/-- Every record the classifier fold appends carries confidence 0.7. -/
lemma classifyFold_confidence (l : List (ℕ × Block)) (thr : ℚ) :
    ∀ (recs : List StructRecord) (secs : List String) (r : StructRecord),
      r ∈ (classifyFold l thr recs secs).1 → r ∈ recs ∨ r.confidence = 7/10 := by
  induction l with
  | nil =>
    intro recs secs r hr
    left
    simpa [classifyFold] using hr
  | cons hd rest ih =>
    obtain ⟨i, b⟩ := hd
    intro recs secs r hr
    by_cases hk : b.kind = "text"
    · have hstep : classifyFold ((i, b) :: rest) thr recs secs
          = classifyFold rest thr
              (recs ++ [⟨(i : ℤ),
                classifyType i (decide (0 < i) && (match recs.getLast? with
                  | some r => r.type == "list_item"
                  | none => false)) thr b, 7/10⟩])
              (if classifyType i (decide (0 < i) && (match recs.getLast? with
                  | some r => r.type == "list_item"
                  | none => false)) thr b = "heading1"
                then secs ++ [pyStrip (extract_block_text b)] else secs) := by
        simp only [classifyFold]
        rw [if_pos hk]
      rw [hstep] at hr
      rcases ih _ _ r hr with hmem | hconf
      · rcases List.mem_append.mp hmem with hmem' | hmem'
        · exact Or.inl hmem'
        · right
          rw [List.mem_singleton] at hmem'
          rw [hmem']
      · exact Or.inr hconf
    · have hstep : classifyFold ((i, b) :: rest) thr recs secs
          = classifyFold rest thr recs secs := by
        simp only [classifyFold]
        rw [if_neg hk]
      rw [hstep] at hr
      exact ih _ _ r hr

/-- C9 (amended): every record of the converter's heuristic classifier
carries confidence exactly 0.7; every record of the MCP server's duplicated
heuristic carries confidence exactly 0.8 — deliberately above 0.7, so the
two entry points do not agree on confidence. -/
theorem c9_heuristic_confidences :
    (∀ (blocks : List Block) (recs : List StructRecord) (r : StructRecord),
      (fallback_structure_analysis blocks).structureField = some recs → r ∈ recs →
        r.confidence = 7/10)
    ∧ (∀ (blocks : List Block) (recs : List StructRecord) (r : StructRecord),
      (generate_heuristic_analysis blocks).structureField = some recs → r ∈ recs →
        r.confidence = 4/5) := by
  constructor
  · intro blocks recs r hsome hr
    simp only [fallback_structure_analysis, Option.some.injEq] at hsome
    rw [← hsome] at hr
    rcases classifyFold_confidence blocks.enum _ [] [] r hr with hmem | hconf
    · simp at hmem
    · exact hconf
  · intro blocks recs r hsome hr
    simp only [generate_heuristic_analysis, Option.some.injEq] at hsome
    rw [← hsome] at hr
    obtain ⟨p, _, hp⟩ := List.mem_map.mp hr
    rw [← hp]

/-- The MCP server's heuristic classifies the short plain block `paragraph`. -/
lemma mcpClassify_exPara : mcpClassifyType 0 exPara = "paragraph" := by
  have havg : get_average_font_size exPara = 10 := by
    norm_num [get_average_font_size, blockSpans, exPara]
  have hbold : is_block_bold exPara = false := by
    norm_num [is_block_bold, blockSpans, exPara]
  have hbm : bulletMatch (extract_block_text exPara) = false := by decide
  have hnm : numMatch (extract_block_text exPara) = false := by decide
  have hco : (extract_block_text exPara).data.contains ':' = false := by decide
  simp only [mcpClassifyType]
  rw [havg, hbold, hbm, hnm, hco]
  norm_num

/-- C9 fails on the code: the MCP server's duplicated heuristic emits a
record with confidence 0.8, which is strictly above 0.7. -/
theorem c9_counterexample :
    (generate_heuristic_analysis [exPara]).structureField = some [⟨0, "paragraph", 4/5⟩]
    ∧ (7/10 : ℚ) < 4/5 := by
  refine ⟨?_, by norm_num⟩
  have hkind : exPara.kind = "text" := rfl
  have henum : [exPara].enum = [(0, exPara)] := rfl
  simp only [generate_heuristic_analysis]
  rw [henum]
  simp [List.filter_cons, hkind, mcpClassify_exPara]

/-- The converter's heuristic classifies the short plain block `paragraph`
when the page mean margin is 0. -/
lemma classify_exPara_thr0 : classifyType 0 false 0 exPara = "paragraph" := by
  have havg : get_average_font_size exPara = 10 := by
    norm_num [get_average_font_size, blockSpans, exPara]
  have hbold : is_block_bold exPara = false := by
    norm_num [is_block_bold, blockSpans, exPara]
  have hx : exPara.x0 = 0 := rfl
  have hbm : bulletMatch (extract_block_text exPara) = false := by decide
  have hnm : numMatch (extract_block_text exPara) = false := by decide
  have hco : (extract_block_text exPara).data.contains ':' = false := by decide
  simp only [classifyType]
  rw [havg, hbold, hx, hbm, hnm, hco]
  norm_num

/-- Witness for C9 (amended): the single record of the heuristic run on one
plain block carries confidence 0.7. -/
theorem c9_heuristic_confidences_witness :
    (fallback_structure_analysis [exPara]).structureField = some [⟨0, "paragraph", 7/10⟩]
    ∧ (⟨0, "paragraph", 7/10⟩ : StructRecord).confidence = 7/10 := by
  have hthr : (if ((([exPara].filter (fun b => b.kind == "text")).map Block.x0)).isEmpty
      then (0 : ℚ)
      else ((([exPara].filter (fun b => b.kind == "text")).map Block.x0)).sum
        / (((([exPara].filter (fun b => b.kind == "text")).map Block.x0)).length : ℚ)) = 0 := by
    norm_num [exPara, List.filter_cons]
  have henum : [exPara].enum = [(0, exPara)] := rfl
  have hne1 : ¬ (("paragraph" : String) = "heading1") := by decide
  have h : (fallback_structure_analysis [exPara]).structureField
      = some [⟨0, "paragraph", 7/10⟩] := by
    simp only [fallback_structure_analysis]
    rw [hthr, henum]
    simp only [classifyFold, if_pos (show exPara.kind = "text" from rfl)]
    norm_num [classify_exPara_thr0, hne1]
  exact ⟨h, c9_heuristic_confidences.1 [exPara] [⟨0, "paragraph", 7/10⟩]
    ⟨0, "paragraph", 7/10⟩ h (List.mem_singleton_self _)⟩

/-! ## Structure Analyzer (`_automated_analysis_request`) -/

/-- `_automated_analysis_request`: with a registered callback, return the
callback's mapping, falling back to the heuristic analysis only when the
callback raises; with no callback, return the heuristic analysis.  The
callback is modelled as a function that either returns a mapping or
raises. -/
def automated_analysis_request
    (analysis_callback : Option (String → List Block → Except Unit AnalysisResult))
    (prompt : String) (text_blocks : List Block) : AnalysisResult :=
  match analysis_callback with
  | some cb =>
    match cb prompt text_blocks with
    | Except.ok m => m
    | Except.error _ => fallback_structure_analysis text_blocks
  | none => fallback_structure_analysis text_blocks

/-- C1 fails on the code: a callback that returns a mapping with no
`structure` field is NOT replaced by the heuristic result — the mapping is
returned unchanged, so the analysis differs from the heuristic analysis of
the same blocks. -/
theorem c1_counterexample :
    automated_analysis_request
        (some fun _ _ => Except.ok ⟨none, "", [], false, "", []⟩) "" []
      ≠ fallback_structure_analysis [] := by
  intro h
  have h' := congrArg AnalysisResult.title h
  simp only [automated_analysis_request, fallback_structure_analysis] at h'
  exact absurd h' (by decide)

/-- C1 (amended): a callback that raises falls back to exactly the
heuristic result — identical to the no-callback (disabled) mode — while a
callback that returns a mapping, with or without a `structure` field, has
its mapping returned unchanged (no shape validation). -/
theorem c1_callback_error_falls_back
    (cb : String → List Block → Except Unit AnalysisResult) (prompt : String)
    (blocks : List Block) :
    (cb prompt blocks = Except.error () →
      automated_analysis_request (some cb) prompt blocks
        = fallback_structure_analysis blocks)
    ∧ automated_analysis_request none prompt blocks = fallback_structure_analysis blocks
    ∧ (∀ m, cb prompt blocks = Except.ok m →
      automated_analysis_request (some cb) prompt blocks = m) := by
  refine ⟨?_, rfl, ?_⟩
  · intro he
    simp only [automated_analysis_request, he]
  · intro m hm
    simp only [automated_analysis_request, hm]

/-- Witness for C1 (amended): a callback that always raises yields exactly
the heuristic result. -/
theorem c1_callback_error_falls_back_witness :
    automated_analysis_request (some fun _ _ => Except.error ()) "" []
      = fallback_structure_analysis [] :=
  (c1_callback_error_falls_back (fun _ _ => Except.error ()) "" []).1 rfl

/-! ## Markdown Renderer (`convert_blocks_to_markdown` and helpers) -/

/-- Whether a span carries a link whose url equals `u` (the grouping
condition of the inner while loop of `_extract_block_text_with_links`). -/
def sameUrl (u : String) (s : Span) : Bool :=
  match s.link with
  | some a => a.url == u
  | none => false

/-- Formatting of one grouped link run (the if/elif/else after the inner
while loop): trim the collected text and wrap it `[text](url)` for external
and internal links, drop the link syntax otherwise, and emit the raw text
(preserving whitespace) when it trims to nothing. -/
def linkChunk (a : AttachedLink) (linked_text : String) : String :=
  if pyStrip linked_text ≠ "" then
    if a.kind = "external" then "[" ++ pyStrip linked_text ++ "](" ++ a.url ++ ")"
    else if a.kind = "internal" then "[" ++ pyStrip linked_text ++ "](" ++ a.url ++ ")"
    else pyStrip linked_text
  else linked_text

/-- The span walk of `_extract_block_text_with_links` over one line: a span
carrying a link with a non-empty url greedily absorbs all immediately
following spans whose link has the identical url; the collected run is
rendered by `linkChunk`; spans without a (truthy) link are copied
verbatim. -/
def extractSpans : List Span → String
  | [] => ""
  | s :: rest =>
    match s.link with
    | some a =>
      if a.url ≠ "" then
        linkChunk a (s.text ++ String.join ((rest.takeWhile (sameUrl a.url)).map Span.text))
          ++ extractSpans (rest.dropWhile (sameUrl a.url))
      else s.text ++ extractSpans rest
    | none => s.text ++ extractSpans rest
termination_by l => l.length
decreasing_by
  all_goals simp only [List.length_cons]
  all_goals first
    | exact Nat.lt_succ_of_le (List.Sublist.length_le (List.dropWhile_sublist _))
    | exact Nat.lt_succ_self _

/-- `_extract_block_text_with_links`: the line-by-line concatenation of the
span walk. -/
def extract_block_text_with_links (b : Block) : String :=
  String.join (b.lines.map (fun line => extractSpans line.spans))

/-- `re.sub(r'^\s*[•‣◦⁃∙\*\-\+]\s*', '- ', s)`: replace a leading
bullet glyph (with surrounding whitespace) by `"- "`; no match leaves the
string unchanged. -/
def subBullet (s : String) : String :=
  match s.data.dropWhile isSpaceChar with
  | c :: rest => if isBulletChar c then "- " ++ String.mk (rest.dropWhile isSpaceChar) else s
  | [] => s

/-- `re.sub(r'^\s*\d+\.?\s*', '1. ', s)`: replace a leading numeral (with
optional dot and surrounding whitespace) by `"1. "`; no match leaves the
string unchanged. -/
def subNum (s : String) : String :=
  if ((s.data.dropWhile isSpaceChar).takeWhile Char.isDigit).isEmpty then s
  else
    "1. " ++ String.mk
      ((match (s.data.dropWhile isSpaceChar).drop
            ((s.data.dropWhile isSpaceChar).takeWhile Char.isDigit).length with
        | '.' :: r => r
        | r => r).dropWhile isSpaceChar)

/-- `re.match(r'^1\. ', s)`. -/
def startsOneDotSpace (s : String) : Bool :=
  match s.data with
  | '1' :: '.' :: ' ' :: _ => true
  | _ => false

/-- `re.match(r'^\d+\.\s', s)`. -/
def startsNumDotSpace (s : String) : Bool :=
  if (s.data.takeWhile Char.isDigit).isEmpty then false
  else
    match s.data.drop (s.data.takeWhile Char.isDigit).length with
    | '.' :: c :: _ => isSpaceChar c
    | _ => false

/-- The renderer's list-marker normalization (lines 620–629): strip, run the
two substitutions, then prepend `"- "` unless the text now begins with a
recognized ordered-list marker. -/
def normalizeListText (formatted_text : String) : String :=
  if startsOneDotSpace (subNum (subBullet (pyStrip formatted_text))) = true
      ∨ startsNumDotSpace (subNum (subBullet (pyStrip formatted_text))) = true then
    subNum (subBullet (pyStrip formatted_text))
  else "- " ++ subNum (subBullet (pyStrip formatted_text))

/-- The renderer's `structure_map` lookup: a dict comprehension keyed by
`block_id` (later duplicates overwrite earlier ones), with default type
`paragraph`. -/
def lookupType (recs : List StructRecord) (i : ℕ) : String :=
  match (recs.filter (fun r => r.block_id == (i : ℤ))).getLast? with
  | some r => r.type
  | none => "paragraph"

/-- The block walk of `convert_blocks_to_markdown`: returns the markdown
lines.  Text blocks emit one prefixed line plus a blank spacing line (blocks
whose text trims to nothing are skipped); image blocks consume image
references in encounter order while any remain. -/
def renderFold : List (ℕ × Block) → List StructRecord → List String → ℕ → List String
  | [], _, _, _ => []
  | (i, b) :: rest, recs, images, image_index =>
    if b.kind = "text" then
      if pyStrip (extract_block_text_with_links b) = "" then
        renderFold rest recs images image_index
      else
        (if lookupType recs i = "title" then
            ["# " ++ pyStrip (extract_block_text_with_links b)]
          else if lookupType recs i = "heading1" then
            ["# " ++ pyStrip (extract_block_text_with_links b)]
          else if lookupType recs i = "heading2" then
            ["## " ++ pyStrip (extract_block_text_with_links b)]
          else if lookupType recs i = "heading3" then
            ["### " ++ pyStrip (extract_block_text_with_links b)]
          else if lookupType recs i = "heading4" then
            ["#### " ++ pyStrip (extract_block_text_with_links b)]
          else if lookupType recs i = "list_item" then
            [normalizeListText (extract_block_text_with_links b)]
          else [pyStrip (extract_block_text_with_links b)])
          ++ [""] ++ renderFold rest recs images image_index
    else if b.kind = "image" ∧ image_index < images.length then
      ["![Image](" ++ images.getD image_index "" ++ ")", ""]
        ++ renderFold rest recs images (image_index + 1)
    else renderFold rest recs images image_index

/-- `convert_blocks_to_markdown`: walk the enumerated blocks against the
analysis's `structure` list (empty when absent) and join the markdown lines
with newlines. -/
def convert_blocks_to_markdown (text_blocks : List Block) (analysis : AnalysisResult)
    (images : List String) : String :=
  String.intercalate "\n"
    (renderFold text_blocks.enum (analysis.structureField.getD []) images 0)

/-- C2 fails on the code: the final re-prefix check only recognizes ordered
markers, so a bullet already rewritten to `"- "` receives a second `"- "`,
and the numeral substitution rewrites `"3."` to `"1."` rather than keeping
it. -/
theorem c2_counterexample :
    normalizeListText "• Item one" ≠ "- Item one"
    ∧ normalizeListText "3. Item two" ≠ "3. Item two" := by
  constructor
  · decide
  · decide

/-- C2 (amended): the renderer replaces a leading bullet glyph by `"- "`
and a leading `"N."`/`"N"` numeral prefix by `"1. "`, then prepends another
`"- "` unless the result begins with an ordered marker (`"1. "` or
digits-dot-whitespace): `"• Item one"` renders as `"- - Item one"`,
`"3. Item two"` as `"1. Item two"`, and `"*Item three"` (no space after the
glyph) as `"- - Item three"`. -/
theorem c2_list_marker_normalization :
    normalizeListText "• Item one" = "- - Item one"
    ∧ normalizeListText "3. Item two" = "1. Item two"
    ∧ normalizeListText "*Item three" = "- - Item three"
    ∧ convert_blocks_to_markdown [⟨"text", 0, [⟨[⟨"• Item one", 12, 0, none⟩]⟩]⟩]
        ⟨some [⟨0, "list_item", 7/10⟩], "", [], false, "", []⟩ []
      = "- - Item one\n" := by
  refine ⟨by decide, by decide, by decide, ?_⟩
  have hx : extract_block_text_with_links ⟨"text", 0, [⟨[⟨"• Item one", 12, 0, none⟩]⟩]⟩
      = "• Item one" := by
    simp only [extract_block_text_with_links, List.map_cons, List.map_nil, extractSpans,
      List.takeWhile_nil, List.dropWhile_nil]
    decide
  simp only [convert_blocks_to_markdown, List.enum, List.enumFrom, renderFold]
  rw [hx]
  decide

/-- Appending a record whose block id is out of the page's index range
leaves every in-range lookup unchanged. -/
lemma lookupType_append_oob (recs : List StructRecord) (r : StructRecord) (i n : ℕ)
    (hi : i < n) (hr : r.block_id < 0 ∨ (n : ℤ) ≤ r.block_id) :
    lookupType (recs ++ [r]) i = lookupType recs i := by
  have hne : (r.block_id == (i : ℤ)) = false := by
    rw [beq_eq_false_iff_ne]
    intro he
    have hin : (i : ℤ) < (n : ℤ) := by exact_mod_cast hi
    rcases hr with h | h
    · rw [he] at h
      omega
    · rw [he] at h
      omega
  simp only [lookupType, List.filter_append]
  rw [show List.filter (fun r' => r'.block_id == (i : ℤ)) [r] = [] from by simp [hne]]
  simp

/-- The renderer walk depends on the record list only through the lookups at
the walked indices. -/
lemma renderFold_congr (l : List (ℕ × Block)) (recs₁ recs₂ : List StructRecord)
    (images : List String) :
    ∀ k, (∀ p ∈ l, lookupType recs₁ p.1 = lookupType recs₂ p.1) →
      renderFold l recs₁ images k = renderFold l recs₂ images k := by
  induction l with
  | nil =>
    intro k _
    rfl
  | cons hd rest ih =>
    obtain ⟨i, b⟩ := hd
    intro k h
    have hi : lookupType recs₁ i = lookupType recs₂ i := h (i, b) (List.mem_cons_self _ _)
    have hrest : ∀ p ∈ rest, lookupType recs₁ p.1 = lookupType recs₂ p.1 :=
      fun p hp => h p (List.mem_cons_of_mem _ hp)
    simp only [renderFold]
    rw [hi, ih k hrest, ih (k + 1) hrest]

/-- An entry of a list's enumeration has its index below the list's
length. -/
lemma fst_lt_of_mem_enum {α : Type} {p : ℕ × α} {l : List α} (h : p ∈ l.enum) :
    p.1 < l.length := by
  obtain ⟨hlt, _⟩ := List.getElem?_eq_some.mp (List.mem_enum_iff_getElem?.mp h)
  exact hlt

/-- C8 (amended): a classification record whose block index is negative or
out of range for the page is silently ignored by `render` — the output is
exactly the output without that record (no failure is raised; unmapped
blocks default to `paragraph`). -/
theorem c8_invalid_index_ignored (blocks : List Block) (recs : List StructRecord)
    (r : StructRecord) (images : List String) (a a' : AnalysisResult)
    (ha : a.structureField = some recs) (ha' : a'.structureField = some (recs ++ [r]))
    (hr : r.block_id < 0 ∨ (blocks.length : ℤ) ≤ r.block_id) :
    convert_blocks_to_markdown blocks a' images
      = convert_blocks_to_markdown blocks a images := by
  simp only [convert_blocks_to_markdown, ha, ha', Option.getD_some]
  exact congrArg _ (renderFold_congr blocks.enum (recs ++ [r]) recs images 0
    (fun p hp => lookupType_append_oob recs r p.1 blocks.length (fst_lt_of_mem_enum hp) hr))

/-- Witness for C8 (amended): rendering one block with a stray record for
block index 5 equals rendering with no records at all. -/
theorem c8_invalid_index_ignored_witness :
    convert_blocks_to_markdown [⟨"text", 0, [⟨[⟨"hello", 12, 0, none⟩]⟩]⟩]
        ⟨some [⟨5, "heading1", 1⟩], "", [], false, "", []⟩ []
      = convert_blocks_to_markdown [⟨"text", 0, [⟨[⟨"hello", 12, 0, none⟩]⟩]⟩]
        ⟨some [], "", [], false, "", []⟩ [] :=
  c8_invalid_index_ignored [⟨"text", 0, [⟨[⟨"hello", 12, 0, none⟩]⟩]⟩] []
    ⟨5, "heading1", 1⟩ [] _ _ rfl rfl (by decide)

/-- C8 fails on the code: `render` given a record for out-of-range block
index 5 on a one-block page raises nothing and emits the normal paragraph
output — the bad record is silently absorbed, with no "invalid index"
signal. -/
theorem c8_counterexample :
    convert_blocks_to_markdown [⟨"text", 0, [⟨[⟨"hello", 12, 0, none⟩]⟩]⟩]
        ⟨some [⟨5, "heading1", 1⟩], "", [], false, "", []⟩ []
      = "hello\n" := by
  have hx : extract_block_text_with_links ⟨"text", 0, [⟨[⟨"hello", 12, 0, none⟩]⟩]⟩
      = "hello" := by
    simp only [extract_block_text_with_links, List.map_cons, List.map_nil, extractSpans,
      List.takeWhile_nil, List.dropWhile_nil]
    decide
  simp only [convert_blocks_to_markdown, List.enum, List.enumFrom, renderFold]
  rw [hx]
  decide

/-! ### Splitting lemmas for the span walk -/

lemma extractSpans_nil : extractSpans [] = "" := by
  simp [extractSpans]

lemma extractSpans_cons_none (s : Span) (rest : List Span) (h : s.link = none) :
    extractSpans (s :: rest) = s.text ++ extractSpans rest := by
  simp only [extractSpans]
  rw [h]

lemma extractSpans_cons_untruthy (s : Span) (rest : List Span) (a : AttachedLink)
    (h : s.link = some a) (hu : a.url = "") :
    extractSpans (s :: rest) = s.text ++ extractSpans rest := by
  simp only [extractSpans]
  rw [h]
  simp [hu]

lemma extractSpans_cons_some (s : Span) (rest : List Span) (a : AttachedLink)
    (h : s.link = some a) (hu : a.url ≠ "") :
    extractSpans (s :: rest)
      = linkChunk a (s.text ++ String.join ((rest.takeWhile (sameUrl a.url)).map Span.text))
        ++ extractSpans (rest.dropWhile (sameUrl a.url)) := by
  simp only [extractSpans]
  rw [h]
  simp [hu]

/-- When some element of `l₁` fails `p`, `takeWhile`/`dropWhile` of an
append never reach `l₂`. -/
lemma takeWhile_append_not_all {α : Type} (p : α → Bool) (l₁ l₂ : List α)
    (h : ¬ ∀ x ∈ l₁, p x = true) :
    (l₁ ++ l₂).takeWhile p = l₁.takeWhile p
    ∧ (l₁ ++ l₂).dropWhile p = l₁.dropWhile p ++ l₂ := by
  induction l₁ with
  | nil => exact absurd (by simp) h
  | cons x xs ih =>
    by_cases hx : p x = true
    · have h' : ¬ ∀ y ∈ xs, p y = true := by
        intro hall
        apply h
        intro y hy
        rcases List.mem_cons.mp hy with rfl | hy'
        · exact hx
        · exact hall y hy'
      obtain ⟨ht, hd⟩ := ih h'
      refine ⟨?_, ?_⟩ <;>
        simp [List.takeWhile_cons, List.dropWhile_cons, hx, ht, hd]
    · have hx' : p x = false := by
        cases hpx : p x
        · rfl
        · exact absurd hpx hx
      refine ⟨?_, ?_⟩ <;>
        simp [List.takeWhile_cons, List.dropWhile_cons, hx']

/-- A non-empty `dropWhile` result keeps the original last element. -/
lemma getLast?_dropWhile_of_ne_nil {α : Type} (p : α → Bool) (l : List α)
    (h : l.dropWhile p ≠ []) : (l.dropWhile p).getLast? = l.getLast? := by
  obtain ⟨t, ht⟩ := List.dropWhile_suffix (l := l) p
  conv_rhs => rw [← ht]
  rw [List.getLast?_append]
  cases hd : (l.dropWhile p).getLast? with
  | none => exact absurd (List.getLast?_eq_none_iff.mp hd) h
  | some x => rfl

/-- The span walk distributes over an append as long as no same-url link
run straddles the boundary: whenever the left part ends in a span linked
with some url and the right part begins with a span linked with the same
url, that url is empty (untruthy). -/
lemma extractSpans_append : ∀ (n : ℕ) (xs : List Span), xs.length ≤ n → ∀ (ys : List Span),
    (∀ la lb, xs.getLast?.bind Span.link = some la → ys.head?.bind Span.link = some lb →
      la.url = lb.url → la.url = "") →
    extractSpans (xs ++ ys) = extractSpans xs ++ extractSpans ys := by
  intro n
  induction n with
  | zero =>
    intro xs hlen ys _
    have hx : xs = [] := List.length_eq_zero.mp (Nat.le_zero.mp hlen)
    subst hx
    simp [extractSpans_nil]
  | succ n ih =>
    intro xs hlen ys hsep
    cases xs with
    | nil => simp [extractSpans_nil]
    | cons s rest =>
      have hlen' : rest.length ≤ n := by
        simp only [List.length_cons] at hlen
        omega
      have hsep' : ∀ la lb, rest.getLast?.bind Span.link = some la →
          ys.head?.bind Span.link = some lb → la.url = lb.url → la.url = "" := by
        intro la lb hla hlb he
        refine hsep la lb ?_ hlb he
        cases rest with
        | nil => simp at hla
        | cons b l => rw [List.getLast?_cons_cons]; exact hla
      cases hl : s.link with
      | none =>
        rw [List.cons_append, extractSpans_cons_none s (rest ++ ys) hl,
          extractSpans_cons_none s rest hl, ih rest hlen' ys hsep', String.append_assoc]
      | some a =>
        by_cases hu : a.url = ""
        · rw [List.cons_append, extractSpans_cons_untruthy s (rest ++ ys) a hl hu,
            extractSpans_cons_untruthy s rest a hl hu, ih rest hlen' ys hsep',
            String.append_assoc]
        · rw [List.cons_append, extractSpans_cons_some s (rest ++ ys) a hl hu,
            extractSpans_cons_some s rest a hl hu]
          by_cases hall : ∀ x ∈ rest, sameUrl a.url x = true
          · have hlast : ∃ la, (s :: rest).getLast?.bind Span.link = some la
                ∧ la.url = a.url := by
              cases hr : rest.getLast? with
              | none =>
                have hrn : rest = [] := List.getLast?_eq_none_iff.mp hr
                subst hrn
                exact ⟨a, by simp [hl], rfl⟩
              | some x =>
                have hx : x ∈ rest := List.mem_of_getLast?_eq_some hr
                have hxs := hall x hx
                cases hxl : x.link with
                | none => simp [sameUrl, hxl] at hxs
                | some la =>
                  refine ⟨la, ?_, ?_⟩
                  · cases rest with
                    | nil => simp at hr
                    | cons b l =>
                      rw [List.getLast?_cons_cons, hr]
                      simp [hxl]
                  · rw [sameUrl, hxl] at hxs
                    exact beq_iff_eq.mp hxs
            have hyhead : ys.takeWhile (sameUrl a.url) = []
                ∧ ys.dropWhile (sameUrl a.url) = ys := by
              cases ys with
              | nil => simp
              | cons y ys' =>
                have hy : sameUrl a.url y = false := by
                  cases hyl : y.link with
                  | none => simp [sameUrl, hyl]
                  | some lb =>
                    by_cases hbe : lb.url = a.url
                    · exfalso
                      obtain ⟨la, hla, hlau⟩ := hlast
                      exact hu (hlau ▸ hsep la lb hla (by simp [hyl])
                        (by rw [hlau, hbe]))
                    · rw [sameUrl, hyl]
                      exact beq_eq_false_iff_ne.mpr hbe
                constructor
                · simp [List.takeWhile_cons, hy]
                · simp [List.dropWhile_cons, hy]
            obtain ⟨hyt, hyd⟩ := hyhead
            have htself : rest.takeWhile (sameUrl a.url) = rest :=
              List.takeWhile_eq_self_iff.mpr hall
            have hdnil : rest.dropWhile (sameUrl a.url) = [] :=
              List.dropWhile_eq_nil_iff.mpr hall
            rw [List.takeWhile_append_of_pos hall, List.dropWhile_append_of_pos hall,
              hyt, hyd, htself, hdnil, extractSpans_nil, List.append_nil,
              String.append_empty]
          · obtain ⟨ht, hd⟩ := takeWhile_append_not_all (sameUrl a.url) rest ys hall
            rw [ht, hd]
            have hdne : rest.dropWhile (sameUrl a.url) ≠ [] := by
              intro hnil
              exact hall (List.dropWhile_eq_nil_iff.mp hnil)
            have hrne : rest ≠ [] := by
              intro hnil
              subst hnil
              simp at hdne
            have hlen'' : (rest.dropWhile (sameUrl a.url)).length ≤ n :=
              le_trans (List.Sublist.length_le (List.dropWhile_sublist _)) hlen'
            have hsep'' : ∀ la lb,
                (rest.dropWhile (sameUrl a.url)).getLast?.bind Span.link = some la →
                ys.head?.bind Span.link = some lb → la.url = lb.url → la.url = "" := by
              intro la lb hla hlb he
              rw [getLast?_dropWhile_of_ne_nil _ _ hdne] at hla
              exact hsep' la lb hla hlb he
            rw [ih _ hlen'' ys hsep'', String.append_assoc]

/-- C4 (amended): a maximal run of consecutive spans all linked with the
same (non-empty, external or internal) url — the span before it, if any,
and the span after it, if any, do not carry that url — is emitted as the
single markdown link `[t](url)` where `t` is the trimmed concatenation of
the run's raw texts, provided that concatenation does not trim to nothing
(an all-whitespace run is emitted verbatim instead; see the
counterexample); the surrounding spans are rendered independently. -/
theorem c4_link_run_merge (pre rs post : List Span) (s₀ : Span) (a : AttachedLink)
    (h₀ : s₀.link = some a) (hu : a.url ≠ "")
    (hkind : a.kind = "external" ∨ a.kind = "internal")
    (hrun : ∀ x ∈ rs, sameUrl a.url x = true)
    (hpre : ∀ x, pre.getLast? = some x → sameUrl a.url x = false)
    (hpost : ∀ y, post.head? = some y → sameUrl a.url y = false)
    (hclean : pyStrip (s₀.text ++ String.join (rs.map Span.text)) ≠ "") :
    extractSpans (pre ++ s₀ :: rs ++ post)
      = extractSpans pre
        ++ ("[" ++ pyStrip (s₀.text ++ String.join (rs.map Span.text)) ++ "](" ++ a.url ++ ")")
        ++ extractSpans post := by
  have hsep : ∀ la lb, pre.getLast?.bind Span.link = some la →
      (s₀ :: (rs ++ post)).head?.bind Span.link = some lb → la.url = lb.url →
      la.url = "" := by
    intro la lb hla hlb he
    have hlb' : lb = a := by
      simp only [List.head?_cons, Option.some_bind, h₀, Option.some.injEq] at hlb
      exact hlb.symm
    subst hlb'
    cases hx : pre.getLast? with
    | none => rw [hx] at hla; simp at hla
    | some x =>
      rw [hx] at hla
      simp only [Option.some_bind] at hla
      have hfx := hpre x hx
      rw [sameUrl, hla] at hfx
      exact absurd he (beq_eq_false_iff_ne.mp hfx)
  have hsplit := extractSpans_append pre.length pre le_rfl (s₀ :: (rs ++ post)) hsep
  have hposttw : post.takeWhile (sameUrl a.url) = []
      ∧ post.dropWhile (sameUrl a.url) = post := by
    cases post with
    | nil => simp
    | cons y ys =>
      have hy := hpost y rfl
      constructor
      · simp [List.takeWhile_cons, hy]
      · simp [List.dropWhile_cons, hy]
  have hchunk : extractSpans (s₀ :: (rs ++ post))
      = ("[" ++ pyStrip (s₀.text ++ String.join (rs.map Span.text)) ++ "](" ++ a.url ++ ")")
        ++ extractSpans post := by
    rw [extractSpans_cons_some s₀ (rs ++ post) a h₀ hu,
      List.takeWhile_append_of_pos hrun, List.dropWhile_append_of_pos hrun,
      hposttw.1, hposttw.2, List.append_nil]
    rcases hkind with hk | hk
    · rw [linkChunk, if_pos hclean, if_pos hk]
    · rw [linkChunk, if_pos hclean, if_neg (by rw [hk]; decide), if_pos hk]
  have hassoc : pre ++ s₀ :: rs ++ post = pre ++ (s₀ :: (rs ++ post)) := by simp
  rw [hassoc, hsplit, hchunk]
  exact (String.append_assoc _ _ _).symm

/-- Witness for C4 (amended): the three spans "Go", " ", "here" all linked
to `https://x/y` merge into the single link `[Go here](https://x/y)`. -/
theorem c4_link_run_merge_witness :
    extractSpans
        [⟨"Go", 12, 0, some ⟨"https://x/y", "external", 1⟩⟩,
          ⟨" ", 12, 0, some ⟨"https://x/y", "external", 1⟩⟩,
          ⟨"here", 12, 0, some ⟨"https://x/y", "external", 1⟩⟩]
      = "[Go here](https://x/y)" := by
  have h := c4_link_run_merge []
    [⟨" ", 12, 0, some ⟨"https://x/y", "external", 1⟩⟩,
      ⟨"here", 12, 0, some ⟨"https://x/y", "external", 1⟩⟩] []
    ⟨"Go", 12, 0, some ⟨"https://x/y", "external", 1⟩⟩
    ⟨"https://x/y", "external", 1⟩ rfl (by decide) (Or.inl rfl) (by decide)
    (by intro x hx; simp at hx) (by intro y hy; simp at hy) (by decide)
  rw [List.nil_append, List.append_nil] at h
  rw [h, extractSpans_nil, String.empty_append, String.append_empty]
  decide

/-- C4 fails on the code as universally stated: a run whose concatenated
text is all whitespace is emitted verbatim (here `" "`), not wrapped as the
markdown link `[](url)` with empty trimmed text. -/
theorem c4_counterexample :
    extractSpans [⟨" ", 12, 0, some ⟨"https://x/y", "external", 1⟩⟩] = " "
    ∧ (" " : String) ≠ "[](https://x/y)" := by
  constructor
  · simp only [extractSpans, List.takeWhile_nil, List.dropWhile_nil]
    decide
  · decide

end PdfToMarkdown
